import Mathlib

set_option maxRecDepth 8000

/-!
Verification of the SOC handwritten-digit recognition system.

This file gives a shallow embedding, in Lean 4, of the parts of the
repository's code that the checked properties speak about:

* the C neural-network engine (`Neuron.c`, `Layer.c`, `NeuronNetwork.c`,
  `Activation.c`, `Loss.c`, `Matrix.c`, `Data.c`, `Evaluation.c`),
* the native N-API bridge (`backend/native/neural_network_wrapper.c`),
* the Node.js service wrapper (`backend/index.js`) and the model/predict
  HTTP route handlers,
* the JavaScript image-preprocessing module (`imageProcessor`).

Modelling conventions:

* C `float`/`double` and JavaScript numbers are modelled as real numbers
  (`ℝ`) where transcendental functions (`expf`, `logf`) occur, and as
  rationals (`ℚ`) in the purely arithmetic JavaScript pipeline, so that
  concrete computations can be checked by `decide`.
* C machine integers are modelled as `Int`, with the big-endian byte
  reinterpretation of the MNIST reader made explicit (reduction mod 2^32
  and two's-complement sign adjustment).
* Heap allocation results (`malloc`) are explicit parameters: `none`
  models an allocation failure, `some buf` a fresh buffer together with
  the indeterminate contents `malloc` leaves in it.
* Mutable scratch fields that the forward pass only writes (a neuron's
  cached `sum`, `output`, `delta`, gradient buffers) are not part of the
  state: the functional embedding returns the computed values instead.
* File I/O is modelled by explicit streams: a binary model file is a
  `List FileWord` (a sequence of 32-bit-int and 32-bit-float records,
  matching the flat save format), an MNIST file is a `List Nat` of bytes,
  and `fopen` failure is an `Option` at the call boundary.
-/

namespace SOC

/-! ## Activation types and scalar ReLU (`Activation.c`, `Neuron.c`) -/

/-- Activation kinds used by the network: `ACTIVATION_RELU` and
`ACTIVATION_SOFTMAX`. -/
inductive ActivationType where
  | relu : ActivationType
  | softmax : ActivationType
deriving DecidableEq, Repr

/-- `relu` (Activation.c lines 38-49): `f(x) = x` for `x > 0`, else `0`. -/
noncomputable def relu (x : ℝ) : ℝ :=
  if x > 0 then x else 0

/-- `FLT_EPSILON`: the gap between 1 and the next representable
single-precision float, `2^-23`. -/
noncomputable def flt_epsilon : ℝ :=
  1 / 2 ^ 23

/-- The running maximum the softmax routines compute: start from
`input[0]` and fold `max` over the rest.  (The C reads `input[0]`
unconditionally; an empty buffer would be out-of-bounds and is never
passed, the `[]` branch is a placeholder.) -/
noncomputable def maxVal : List ℝ → ℝ
  | [] => 0
  | x :: rest => rest.foldl max x

/-- `softmax_forward` (Activation.c lines 93-116): subtract the maximum,
exponentiate, normalise by the sum, then clamp each output into
`[FLT_EPSILON, 1 - FLT_EPSILON]` (`fmaxf` then `fminf`). -/
noncomputable def softmax_forward (input : List ℝ) : List ℝ :=
  let max_val := maxVal input
  let exps := input.map fun x => Real.exp (x - max_val)
  let sum := exps.sum
  exps.map fun e => min (max (e / sum) flt_epsilon) (1 - flt_epsilon)

/-- The per-index scalar `softmax` (Activation.c lines 131-144): the same
value with the clamp written `fmaxf(fminf(r, 1-ε), ε)`.  `x[index]` is
modelled with `getD` (all call sites pass an in-range index). -/
noncomputable def softmax (x : List ℝ) (index : ℕ) : ℝ :=
  let max_val := maxVal x
  let sum := (x.map fun xi => Real.exp (xi - max_val)).sum
  let result := Real.exp (x.getD index 0 - max_val) / sum
  max (min result (1 - flt_epsilon)) flt_epsilon

/-! ## Loss module (`Loss.c` = unnamed/part_015) -/

/-- `LOSS_EPSILON` (unnamed/part_015 line 12): `1e-10`. -/
noncomputable def loss_epsilon : ℝ :=
  1 / 10 ^ 10

/-- `cross_entropy_loss` (unnamed/part_015 lines 38-57): over the paired
entries, subtract `target * log(prediction + LOSS_EPSILON)` at every
index whose target is positive.  (The diagnostic `printf` for
non-positive or NaN predictions does not affect the returned value.) -/
noncomputable def cross_entropy_loss (predictions targets : List ℝ) : ℝ :=
  (predictions.zip targets).foldl
    (fun sum pt =>
      if pt.2 > 0 then sum - pt.2 * Real.log (pt.1 + loss_epsilon) else sum)
    0

/-- A one-hot target vector: a single entry is 1 and every other entry
is 0. -/
def IsOneHot (targets : List ℝ) : Prop :=
  ∃ j, j < targets.length ∧ targets.getD j 0 = 1 ∧
    ∀ i, i < targets.length → i ≠ j → targets.getD i 0 = 0

/-- A value representable as an IEEE-754 binary32 (single-precision)
`float`, the type of `cross_entropy_loss`'s prediction entries: an
integer significand of fewer than 25 bits times a power of two.  (Every
finite float has this form; the exponent-range bound is omitted, making
the predicate a superset of the floats, which only strengthens theorems
assuming it.) -/
def Binary32Representable (x : ℝ) : Prop :=
  ∃ m e : ℤ, |m| < 2 ^ 24 ∧ x = (m : ℝ) * 2 ^ e

/-! ## Neuron (`Neuron.c` = unnamed/part_014) -/

/-- A neuron: weight vector, bias, activation kind.  The C struct also
carries scratch fields (`sum`, `output`, `delta`, `gradients`,
`bias_gradient`) that forward evaluation only writes; the functional
embedding returns those values instead of storing them.  `num_inputs` is
`weights.length`. -/
structure Neuron where
  weights : List ℝ
  bias : ℝ
  activation_type : ActivationType

/-- `neuron_forward` (part_014 lines 86-110): weighted sum plus bias,
with ReLU applied when the neuron's kind is ReLU; softmax neurons return
the raw sum for the owning layer to normalise. -/
noncomputable def neuron_forward (n : Neuron) (inputs : List ℝ) : ℝ :=
  let sum := n.bias + (List.zipWith (· * ·) inputs n.weights).sum
  match n.activation_type with
  | ActivationType.relu => relu sum
  | ActivationType.softmax => sum

/-! ## Layer (`Layer.c`) -/

/-- A layer: its neurons and the shared activation kind.  `num_neurons`
is `neurons.length`; the per-layer `outputs`/`deltas` scratch buffers are
returned by the forward function instead of being stored. -/
structure Layer where
  neurons : List Neuron
  activation_type : ActivationType

/-- The layer-level softmax normalisation of `layer_forward` (Layer.c
lines 105-131): subtract the running maximum, exponentiate, and divide by
the sum; when the post-exponentiation sum is not `> 0` fall back to the
uniform distribution `1/n`.  (No clamping happens here, unlike
`softmax_forward` in Activation.c.) -/
noncomputable def layer_softmax (outputs : List ℝ) : List ℝ :=
  let max_val := match outputs with
    | [] => 0
    | x :: rest => rest.foldl max x
  let exps := outputs.map (fun o => Real.exp (o - max_val))
  let sum := exps.sum
  if sum > 0 then
    exps.map (fun e => e / sum)
  else
    outputs.map (fun _ => 1 / (outputs.length : ℝ))

/-- `layer_forward` (Layer.c lines 87-139): each neuron's raw output,
then the whole-vector softmax for a softmax layer, otherwise ReLU applied
to every output (a second time: `neuron_forward` already applied it). -/
noncomputable def layer_forward (l : Layer) (inputs : List ℝ) : List ℝ :=
  let outputs := l.neurons.map (fun n => neuron_forward n inputs)
  match l.activation_type with
  | ActivationType.softmax => layer_softmax outputs
  | ActivationType.relu => outputs.map relu

/-! ## Neural network (`NeuronNetwork.c`) -/

/-- A network: the layer-size vector (including the input width as
element 0), the learning rate, and the layer stack.  `num_layers` is
`layer_sizes.length`; the invariant `layers.length = layer_sizes.length
- 1` is the well-formedness predicate `LayersWF` below. -/
structure NeuralNetwork where
  layer_sizes : List Int
  learning_rate : ℝ
  layers : List Layer

/-- `network_forward` (NeuronNetwork.c lines 81-102): copy
`layer_sizes[0]` floats of the input into the input buffer, thread the
signal through every layer in order, and copy the final
`layer_sizes[num_layers-1]` floats into the output buffer. -/
noncomputable def network_forward (net : NeuralNetwork) (input : List ℝ) : List ℝ :=
  let x0 := input.take (net.layer_sizes.headD 0).toNat
  let out := net.layers.foldl (fun cur l => layer_forward l cur) x0
  out.take (net.layer_sizes.getLastD 0).toNat

/-- `network_predict` (NeuronNetwork.c lines 133-140): forward pass only,
returning the output buffer. -/
noncomputable def network_predict (net : NeuralNetwork) (input : List ℝ) : List ℝ :=
  network_forward net input

/-! ## Binary persistence (`network_save`/`network_load`,
NeuronNetwork.c lines 170-227, and their byte-for-byte duplicates
`model_save`/`model_load`, Evaluation.c = unnamed/part_016 lines
901-965).

The model file is a flat sequence of 32-bit records with no header: we
model it as a list of tagged words.  Real numbers stand for the stored
float values; a round trip through the file reproduces them exactly,
which models the bit-identical reproduction of the stored 32-bit floats.
A read that hits the end of the stream or a word of the wrong kind makes
the embedded loader fail (`none`); the C loader would instead consume
indeterminate bytes there, a behaviour that has no faithful
representation over `ℝ` and that the round-trip theorem never
exercises. -/

/-- One 32-bit record of the model file: an `int` or a `float`. -/
inductive FileWord where
  | int : Int → FileWord
  | flt : ℝ → FileWord

/-- Read one `int` record (`fread(&x, sizeof(int), 1, f)`). -/
def readInt : List FileWord → Option (Int × List FileWord)
  | FileWord.int n :: rest => some (n, rest)
  | _ => none

/-- Read one `float` record (`fread(&x, sizeof(float), 1, f)`). -/
def readFlt : List FileWord → Option (ℝ × List FileWord)
  | FileWord.flt x :: rest => some (x, rest)
  | _ => none

/-- Read `k` consecutive `int` records (`fread(buf, sizeof(int), k, f)`). -/
def readInts : Nat → List FileWord → Option (List Int × List FileWord)
  | 0, s => some ([], s)
  | k + 1, s => do
    let (n, s1) ← readInt s
    let (ns, s2) ← readInts k s1
    pure (n :: ns, s2)

/-- Read `k` consecutive `float` records (`fread(buf, sizeof(float), k, f)`). -/
def readFlts : Nat → List FileWord → Option (List ℝ × List FileWord)
  | 0, s => some ([], s)
  | k + 1, s => do
    let (x, s1) ← readFlt s
    let (xs, s2) ← readFlts k s1
    pure (x :: xs, s2)

/-- The records `network_save` writes for one neuron: the weight vector
followed by the bias. -/
def serializeNeuron (n : Neuron) : List FileWord :=
  n.weights.map FileWord.flt ++ [FileWord.flt n.bias]

/-- The records `network_save` writes for one layer: every neuron in
order. -/
def serializeLayer (l : Layer) : List FileWord :=
  l.neurons.flatMap serializeNeuron

/-- `network_save` (NeuronNetwork.c lines 207-227): layer count, the
layer-size array, the learning rate, then per layer per neuron the
weights followed by the bias. -/
def network_save (net : NeuralNetwork) : List FileWord :=
  FileWord.int (net.layer_sizes.length : Int) ::
    (net.layer_sizes.map FileWord.int ++
      (FileWord.flt net.learning_rate :: net.layers.flatMap serializeLayer))

/-- `model_save` (unnamed/part_016 lines 901-928): writes the same
records as `network_save`; the C function additionally returns `0` on
success and `-1` when the file cannot be opened, which lives at the
filesystem boundary outside this embedding. -/
def model_save (net : NeuralNetwork) : List FileWord :=
  FileWord.int (net.layer_sizes.length : Int) ::
    (net.layer_sizes.map FileWord.int ++
      (FileWord.flt net.learning_rate :: net.layers.flatMap serializeLayer))

/-- Read the stored weights and bias of one neuron (`network_load` inner
loop); the neuron's activation kind comes from `network_create`'s
position rule, passed in as `act`. -/
def parseNeuron (numInputs : Nat) (act : ActivationType) (s : List FileWord) :
    Option (Neuron × List FileWord) := do
  let (ws, s1) ← readFlts numInputs s
  let (b, s2) ← readFlt s1
  pure (⟨ws, b, act⟩, s2)

/-- Read `count` neurons of one layer. -/
def parseNeurons (numInputs : Nat) (act : ActivationType) :
    Nat → List FileWord → Option (List Neuron × List FileWord)
  | 0, s => some ([], s)
  | k + 1, s => do
    let (n, s1) ← parseNeuron numInputs act s
    let (ns, s2) ← parseNeurons numInputs act k s1
    pure (n :: ns, s2)

/-- Rebuild the layer stack while reading weights: for adjacent sizes
`s0 :: s1 :: rest` the layer has `s1` neurons of `s0` inputs each, and is
the softmax layer exactly when it is the last one (`network_create`'s
rule, NeuronNetwork.c lines 40-48). -/
def parseLayersAux : List Int → List FileWord → Option (List Layer × List FileWord)
  | s0 :: s1 :: rest, s => do
    let act := if rest.isEmpty then ActivationType.softmax else ActivationType.relu
    let (ns, s1') ← parseNeurons s0.toNat act s1.toNat s
    let (ls, s2') ← parseLayersAux (s1 :: rest) s1'
    pure (⟨ns, act⟩ :: ls, s2')
  | _, s => some ([], s)

/-- `network_load` (NeuronNetwork.c lines 170-205): read the layer count,
the layer-size array and the learning rate, create the network
(`network_create` assigns softmax to the last layer, ReLU elsewhere, and
random initial weights), then overwrite every neuron's weights and bias
from the file. -/
def network_load (s : List FileWord) : Option NeuralNetwork := do
  let (numLayersI, s1) ← readInt s
  let (sizes, s2) ← readInts numLayersI.toNat s1
  let (lr, s3) ← readFlt s2
  let (layers, _) ← parseLayersAux sizes s3
  pure ⟨sizes, lr, layers⟩

/-- `model_load` (unnamed/part_016 lines 930-965): byte-for-byte the same
reader as `network_load`. -/
def model_load (s : List FileWord) : Option NeuralNetwork := do
  let (numLayersI, s1) ← readInt s
  let (sizes, s2) ← readInts numLayersI.toNat s1
  let (lr, s3) ← readFlt s2
  let (layers, _) ← parseLayersAux sizes s3
  pure ⟨sizes, lr, layers⟩

/-- Well-formedness of a layer stack against a layer-size vector, exactly
the shape `network_create` establishes: one layer per adjacent size pair,
`s1` neurons of `s0` inputs for the pair `(s0, s1)`, softmax on the last
layer only, every neuron sharing its layer's activation kind. -/
def LayersWF : List Int → List Layer → Prop
  | s0 :: s1 :: rest, l :: ls =>
    l.activation_type =
        (if rest.isEmpty then ActivationType.softmax else ActivationType.relu) ∧
      l.neurons.length = s1.toNat ∧
      (∀ n ∈ l.neurons,
        n.weights.length = s0.toNat ∧ n.activation_type = l.activation_type) ∧
      LayersWF (s1 :: rest) ls
  | _ :: _ :: _, [] => False
  | _, ls => ls = []

/-! ## Dataset shuffling (`dataset_shuffle`, unnamed/part_016 lines
228-249).

The C dataset holds two parallel arrays of row pointers; the shuffle
swaps `inputs[i]` with `inputs[j]` and `targets[i]` with `targets[j]`
using the same `j`, moving rows as whole pointers.  Rows are therefore
opaque here: the embedding is polymorphic in the row types. -/

/-- One swap of the Fisher–Yates loop body applied to one parallel
array: exchange the row pointers at positions `i` and `j`.  (In the C
code both positions are always in range; the out-of-range fallback is
never exercised.) -/
def swapRows {α : Type*} (l : List α) (i j : Nat) : List α :=
  match l[i]?, l[j]? with
  | some xi, some xj => (l.set i xj).set j xi
  | _, _ => l

/-- The Fisher–Yates loop of `dataset_shuffle`: for `i` from
`num_samples - 1` down to `1`, pick `j = rand() % (i + 1)` and swap the
input rows and the target rows at `i` and `j` together.  `rand i` models
the value `rand()` returned at loop index `i`. -/
def dataset_shuffle_aux {α β : Type*} (rand : Nat → Nat) :
    Nat → List α × List β → List α × List β
  | 0, p => p
  | i + 1, (ins, tgs) =>
    let j := rand (i + 1) % (i + 2)
    dataset_shuffle_aux rand i (swapRows ins (i + 1) j, swapRows tgs (i + 1) j)

/-- `dataset_shuffle` (unnamed/part_016 lines 228-249): run the
Fisher–Yates loop starting at index `num_samples - 1` (for an empty or
one-sample dataset the loop body never runs). -/
def dataset_shuffle {α β : Type*} (rand : Nat → Nat) (inputs : List α)
    (targets : List β) : List α × List β :=
  dataset_shuffle_aux rand (inputs.length - 1) (inputs, targets)

/-! ## MNIST ingestion (`Data.c` = unnamed/part_016 lines 18-51 and
295-466).

MNIST files are byte streams (`List Nat`, each entry a byte).  `fread`
into a stack buffer is modelled by `readBuf`: it overwrites as many
leading buffer bytes as the stream still holds and leaves the rest of
the buffer untouched, exactly like a short `fread`.  (The initial
contents of the stack buffers are indeterminate in C and are explicit
parameters here.)  Bytes read past the end of a stream during header
parsing are modelled as 0; the theorems below never depend on those
values. -/

/-- `MNIST_MAGIC_IMAGES` (unnamed/part_016 line 13).  Declared by the C
file — and never consulted by `dataset_load_mnist`. -/
def MNIST_MAGIC_IMAGES : Int := 0x803

/-- `MNIST_MAGIC_LABELS` (unnamed/part_016 line 14). -/
def MNIST_MAGIC_LABELS : Int := 0x801

/-- The value `read_int` assembles from four bytes:
`(b0<<24)|(b1<<16)|(b2<<8)|b3` as a 32-bit C `int` (big-endian, with the
sign bit reinterpreted, i.e. reduced mod `2^32` into
`[-2^31, 2^31)`). -/
def read_int_val (b0 b1 b2 b3 : Nat) : Int :=
  let v : Nat :=
    (b0 % 256) * 2 ^ 24 + (b1 % 256) * 2 ^ 16 + (b2 % 256) * 2 ^ 8 + b3 % 256
  if v < 2 ^ 31 then (v : Int) else (v : Int) - 2 ^ 32

/-- `read_int` (unnamed/part_016 lines 295-303): consume four bytes and
assemble the big-endian integer. -/
def read_int (s : List Nat) : Int × List Nat :=
  (read_int_val (s.getD 0 0) (s.getD 1 0) (s.getD 2 0) (s.getD 3 0), s.drop 4)

/-- A C `(int)` cast of a float value: truncation toward zero. -/
def c_int_cast (q : ℚ) : Int :=
  if 0 ≤ q then ⌊q⌋ else ⌈q⌉

/-- The `Dataset` struct (include/Data.h): parallel input/target row
arrays with their dimensions. -/
structure Dataset where
  inputs : List (List ℚ)
  targets : List (List ℚ)
  num_samples : Int
  input_size : Int
  target_size : Int

/-- `dataset_create` (unnamed/part_016 lines 18-51): rows are
`calloc`-allocated, hence zero-filled.  (Allocation failure is not
modelled; the load routine's allocation-failure exit is noted in the
theorems.) -/
def dataset_create (num_samples input_size target_size : Int) : Dataset :=
  ⟨List.replicate num_samples.toNat (List.replicate input_size.toNat 0),
    List.replicate num_samples.toNat (List.replicate target_size.toNat 0),
    num_samples, input_size, target_size⟩

/-- `fread(buf, 1, k, f)`: overwrite the first `min k (stream length)`
bytes of the buffer with the next stream bytes, keep the rest of the
buffer, and advance the stream. -/
def readBuf (buf : List Nat) (st : List Nat) (k : Nat) : List Nat × List Nat :=
  let r := st.take k
  (r ++ buf.drop r.length, st.drop k)

/-- The per-sample read loop of `dataset_load_mnist` (lines 425-441 and
444-456): read one 784-byte image and one label byte per sample,
producing (input row, one-hot target row) pairs.  Pixels are scaled by
`/255`; the one-hot row is 1 at the label index.  The image buffer and
label byte persist across iterations, like the C stack variables. -/
def mnist_rows : Nat → List Nat → List Nat → List Nat → Nat →
    List (List ℚ × List ℚ)
  | 0, _, _, _, _ => []
  | i + 1, imgs, lbls, buf, lb =>
    let (buf', imgs') := readBuf buf imgs 784
    let (lblBuf, lbls') := readBuf [lb] lbls 1
    let label := lblBuf.getD 0 0
    let row := buf'.map fun b => ((b % 256 : ℕ) : ℚ) / 255
    let tgt := (List.range 10).map fun j => if j = label then (1 : ℚ) else 0
    (row, tgt) :: mnist_rows i imgs' lbls' buf' label

/-- Overwrite the leading rows of a zero-created dataset's row array
with freshly read rows (rows beyond the array's capacity would be a heap
overflow in C and are truncated here). -/
def fillRows (capacity : List (List ℚ)) (rows : List (List ℚ)) : List (List ℚ) :=
  rows.take capacity.length ++ capacity.drop (rows.take capacity.length).length

/-- The result of `dataset_load_mnist`: the returned code (0 success,
-1 failure) and the three produced datasets (none on failure — "no
partial datasets"). -/
structure MnistLoadResult where
  code : Int
  train : Option Dataset
  val : Option Dataset
  test : Option Dataset

/-- `dataset_load_mnist` (unnamed/part_016 lines 305-466): open the four
files (`none` = `fopen` failure ⇒ return -1); read the image and label
headers (magic, counts, dimensions) — the magic numbers are read,
printed, and never compared to anything; split the training stream into
train/validation by `val_size = (int)(num_train * val_ratio)`; create
zero-filled datasets and fill them row by row; return 0.  `initImage`
and `initLabel` are the indeterminate initial contents of the C stack
buffers. -/
def dataset_load_mnist (train_images train_labels test_images test_labels :
      Option (List Nat)) (val_ratio : ℚ) (initImage : List Nat)
    (initLabel : Nat) : MnistLoadResult :=
  match train_images, train_labels, test_images, test_labels with
  | some ti, some tl, some si, some sl =>
    let (_train_magic, ti1) := read_int ti
    let (num_train, ti2) := read_int ti1
    let (_train_rows, ti3) := read_int ti2
    let (_train_cols, ti4) := read_int ti3
    let (_train_labels_magic, tl1) := read_int tl
    let (_num_train_labels, tl2) := read_int tl1
    let (_test_magic, si1) := read_int si
    let (num_test, si2) := read_int si1
    let (_test_rows, si3) := read_int si2
    let (_test_cols, si4) := read_int si3
    let (_test_labels_magic, sl1) := read_int sl
    let (_num_test_labels, sl2) := read_int sl1
    let val_size := c_int_cast ((num_train : ℚ) * val_ratio)
    let train_size := num_train - val_size
    let trainD := dataset_create train_size 784 10
    let valD := dataset_create val_size 784 10
    let testD := dataset_create num_test 784 10
    let rows := mnist_rows num_train.toNat ti4 tl2 initImage initLabel
    let trows := rows.take train_size.toNat
    let vrows := rows.drop train_size.toNat
    let srows := mnist_rows num_test.toNat si4 sl2 initImage initLabel
    { code := 0
      train := some { trainD with
        inputs := fillRows trainD.inputs (trows.map Prod.fst)
        targets := fillRows trainD.targets (trows.map Prod.snd) }
      val := some { valD with
        inputs := fillRows valD.inputs (vrows.map Prod.fst)
        targets := fillRows valD.targets (vrows.map Prod.snd) }
      test := some { testD with
        inputs := fillRows testD.inputs (srows.map Prod.fst)
        targets := fillRows testD.targets (srows.map Prod.snd) } }
  | _, _, _, _ => { code := -1, train := none, val := none, test := none }

/-! ## Matrix engine (`Matrix.c` = unnamed/part_016 lines 478-495) -/

/-- The `Matrix` struct: row count, column count, row-major data
buffer. -/
structure Matrix where
  rows : Int
  cols : Int
  data : List ℝ

/-- `matrix_create` (unnamed/part_016 lines 478-495).  The two `malloc`
calls are explicit parameters: `structAlloc = false` models
`malloc(sizeof(Matrix))` failing, `dataAlloc = none` models the data
buffer allocation failing, and `dataAlloc = some buf` hands over a fresh
buffer with the indeterminate contents `malloc` left in it — the C code
uses `malloc`, not `calloc`, and writes nothing into the buffer. -/
def matrix_create (rows cols : Int) (structAlloc : Bool)
    (dataAlloc : Option (List ℝ)) : Option Matrix :=
  if structAlloc then
    match dataAlloc with
    | none => none
    | some buf => some ⟨rows, cols, buf⟩
  else
    none

/-! ## Native bridge (`backend/native/neural_network_wrapper.c`) -/

/-- The object `GetModelInfo` builds: `{loaded:false}` or
`{loaded:true, numLayers}`. -/
structure ModelInfo where
  loaded : Bool
  numLayers : Option Int
deriving DecidableEq, Repr

/-- Result of `Init` (neural_network_wrapper.c lines 9-29): the returned
success boolean, the new value of the process-wide `nn` pointer, and the
network that was freed (the previously loaded one, if any). -/
structure InitResult where
  success : Bool
  state : Option NeuralNetwork
  freed : Option NeuralNetwork

/-- `Init` (neural_network_wrapper.c lines 9-29): if a network is loaded
it is freed first, then `network_load` runs on the file at the given
path; `nn` becomes the load result and the returned boolean is
`nn != NULL`.  `file` is the content of the file at the path (`none` when
`fopen` fails, which makes `network_load` return `NULL`). -/
def bridge_init (st : Option NeuralNetwork) (file : Option (List FileWord)) :
    InitResult :=
  let nn' := file.bind network_load
  ⟨nn'.isSome, nn', st⟩

/-- `GetModelInfo` (neural_network_wrapper.c lines 82-110): reports
`{loaded:false}` when `nn == NULL`, else `{loaded:true, numLayers:
nn->num_layers}`. -/
def bridge_getModelInfo (st : Option NeuralNetwork) : ModelInfo :=
  match st with
  | none => ⟨false, none⟩
  | some nn => ⟨true, some (nn.layer_sizes.length : Int)⟩

/-- `Cleanup` (neural_network_wrapper.c lines 112-121): frees the loaded
network and clears the pointer. -/
def bridge_cleanup (_st : Option NeuralNetwork) : Option NeuralNetwork :=
  none

/-! ## Model switch route (`POST /api/model/switch`, unnamed/part_004
lines 245-328) -/

/-- The models directory the route resolves names against
(`path.join(__dirname, '../../models')`). -/
def modelsDir : String := "models"

/-- Outcome of one `POST /api/model/switch` request: HTTP status, the
native network state after the request, and whether the native `init`
was invoked during the request. -/
structure SwitchResult where
  status : Nat
  state : Option NeuralNetwork
  initCalled : Bool

/-- The `POST /api/model/switch` handler (unnamed/part_004 lines
245-328): 400 when `modelName` is missing; 404 when the resolved file
does not exist (checked with `fs.existsSync` before any native call);
otherwise `neuralNetwork.init(modelPath)` runs (the service wrapper's
`cleanup()`-then-`Init` sequence, whose net effect on the native state is
the `Init` load result), the reload is verified via `getModelInfo`, and
the route answers 200, or 500 when the load fails.  `fileExists` models
`fs.existsSync` and `fs` gives the file contents at a path. -/
def switch_route (modelName : Option String) (fileExists : String → Bool)
    (fs : String → Option (List FileWord)) (st : Option NeuralNetwork) :
    SwitchResult :=
  match modelName with
  | none => ⟨400, st, false⟩
  | some name =>
    let p := modelsDir ++ "/" ++ name
    if fileExists p then
      let r := bridge_init st (fs p)
      if r.success ∧ (bridge_getModelInfo r.state).loaded then
        ⟨200, r.state, true⟩
      else
        ⟨500, r.state, true⟩
    else
      ⟨404, st, false⟩

/-! ## Service wrapper (`backend/index.js`) -/

/-- A JavaScript value as far as the wrapper's validation can tell them
apart: a number or something else (e.g. a string).  The wrapper checks
only `Array.isArray` and `length`, never the element types. -/
inductive JsVal where
  | num : ℚ → JsVal
  | str : String → JsVal
deriving DecidableEq

/-- A JavaScript argument to `predict`: an array of values, or a
non-array value. -/
inductive JsInput where
  | arr : List JsVal → JsInput
  | nonArray : JsInput
deriving DecidableEq

/-- The wrapper object's state: the `isInitialized` flag set by the
constructor (`false`), by `init` (the native success boolean) and by
`cleanup` (`false`). -/
structure WrapperState where
  isInitialized : Bool
deriving DecidableEq

/-- What a `predict` call does: throw the NotInitialized error, throw the
InvalidInput error, or reach the native module with the given argument. -/
inductive PredictOutcome where
  | notInitialized : PredictOutcome
  | invalidInput : PredictOutcome
  | nativeCall : List JsVal → PredictOutcome
deriving DecidableEq

/-- What a `getModelInfo` call does: throw a NotInitialized error, or
reach the native module. -/
inductive InfoOutcome where
  | notInitialized : InfoOutcome
  | nativeCall : InfoOutcome
deriving DecidableEq

/-- `NeuralNetworkWrapper.predict` (backend/index.js lines 76-89): throw
`Neural network not initialized` unless `isInitialized`; throw
`Input must be an array of 784 numbers` when the argument is not an array
or its length differs from 784 (element types are not inspected);
otherwise call `neuralNetwork.predict(input)`. -/
def wrapper_predict (st : WrapperState) (input : JsInput) : PredictOutcome :=
  if st.isInitialized = false then
    PredictOutcome.notInitialized
  else
    match input with
    | JsInput.nonArray => PredictOutcome.invalidInput
    | JsInput.arr xs =>
      if xs.length = 784 then PredictOutcome.nativeCall xs
      else PredictOutcome.invalidInput

/-- `NeuralNetworkWrapper.getModelInfo` (backend/index.js lines 97-99):
`return neuralNetwork.getModelInfo();` — unconditionally forwards to the
native module, with no initialization check. -/
def wrapper_getModelInfo (_st : WrapperState) : InfoOutcome :=
  InfoOutcome.nativeCall

/-- `NeuralNetworkWrapper.init` (backend/index.js lines 55-65): cleanup
of any previous model, then `isInitialized` becomes the native `init`
result. -/
def wrapper_init (_st : WrapperState) (nativeSuccess : Bool) : WrapperState :=
  ⟨nativeSuccess⟩

/-- `NeuralNetworkWrapper.cleanup` (backend/index.js lines 105-110):
afterwards `isInitialized` is `false`. -/
def wrapper_cleanup (_st : WrapperState) : WrapperState :=
  ⟨false⟩

/-- The state-changing calls of a wrapper call sequence (`predict` and
`getModelInfo` do not change the wrapper state). -/
inductive WrapperCall where
  | init : Bool → WrapperCall
  | cleanup : WrapperCall
deriving DecidableEq

/-- Run a call sequence from the freshly constructed wrapper
(`isInitialized = false`). -/
def runCalls (calls : List WrapperCall) : WrapperState :=
  calls.foldl
    (fun st c =>
      match c with
      | WrapperCall.init s => wrapper_init st s
      | WrapperCall.cleanup => wrapper_cleanup st)
    ⟨false⟩

/-! ## Image preprocessing (`imageProcessor` = unnamed/part_010).

JavaScript numbers here undergo only comparison, min/max, +, *, /, and
`Math.round`, so they are modelled as rationals, which keeps every
pipeline function computable and every concrete run decidable. -/

/-- `normalizePixels` (unnamed/part_010 lines 41-50):
`Math.max(0, Math.min(1, pixel))` on every element. -/
def normalizePixels (pixels : List ℚ) : List ℚ :=
  pixels.map fun pixel => max 0 (min 1 pixel)

/-- `applyThreshold` (unnamed/part_010 lines 156-160): keep a pixel only
when it exceeds the threshold, else zero it. -/
def applyThreshold (pixels : List ℚ) (threshold : ℚ) : List ℚ :=
  pixels.map fun pixel => if pixel > threshold then pixel else 0

/-- `calculateCenterOfMass` (unnamed/part_010 lines 65-94): throws
(`none`) unless there are 784 pixels; the intensity-weighted centroid of
the 28×28 grid, or the grid centre (14, 14) when the total mass is 0. -/
def calculateCenterOfMass (pixels : List ℚ) : Option (ℚ × ℚ) :=
  if pixels.length ≠ 784 then none
  else
    let totalMass := pixels.sum
    let xSum := (pixels.enum.map fun p => ((p.1 % 28 : ℕ) : ℚ) * p.2).sum
    let ySum := (pixels.enum.map fun p => ((p.1 / 28 : ℕ) : ℚ) * p.2).sum
    if totalMass = 0 then some (14, 14)
    else some (xSum / totalMass, ySum / totalMass)

/-- JavaScript `Math.round`: round half towards positive infinity. -/
def jsRound (q : ℚ) : Int :=
  ⌊q + 1 / 2⌋

/-- `centerImage` (unnamed/part_010 lines 105-140): throws (`none`)
unless there are 784 pixels; shift the image by
`round(14 - centerOfMass)` in each axis, zero-filling pixels shifted in
from outside the 28×28 grid, returning the input unchanged when the
shift is (0, 0). -/
def centerImage (pixels : List ℚ) : Option (List ℚ) :=
  if pixels.length ≠ 784 then none
  else
    match calculateCenterOfMass pixels with
    | none => none
    | some com =>
      let shiftX : Int := jsRound (14 - com.1)
      let shiftY : Int := jsRound (14 - com.2)
      if shiftX = 0 ∧ shiftY = 0 then some pixels
      else
        some ((List.range 784).map fun idx =>
          let x : Int := (idx % 28 : ℕ)
          let y : Int := (idx / 28 : ℕ)
          let ox := x - shiftX
          let oy := y - shiftY
          if 0 ≤ ox ∧ ox < 28 ∧ 0 ≤ oy ∧ oy < 28 then
            pixels.getD (oy * 28 + ox).toNat 0
          else 0)

/-- The options object passed to `preprocessImage`.  Each field is
`none` when the property is absent.  `preprocessImage`'s destructuring
reads the properties `normalize`, `center`, `threshold` and
`applyThresh`; the property `applyThreshold` appears on caller objects
(it is the documented API field) but is named here only so such calls
can be expressed — the destructuring never reads it. -/
structure PreprocessOptions where
  normalize : Option Bool := none
  center : Option Bool := none
  threshold : Option ℚ := none
  applyThresh : Option Bool := none
  applyThreshold : Option Bool := none
deriving DecidableEq

/-- `preprocessImage` (unnamed/part_010 lines 176-227): destructure
`{normalize = true, center = true, threshold = 0.1, applyThresh = true}`
from the options, then normalize, then threshold (when `applyThresh` and
`threshold > 0`), then centre; a thrown error from a stage (`none`)
propagates. -/
def preprocessImage (pixels : List ℚ) (options : PreprocessOptions) :
    Option (List ℚ) :=
  let normalize := options.normalize.getD true
  let center := options.center.getD true
  let threshold := options.threshold.getD (1 / 10)
  let applyThresh := options.applyThresh.getD true
  let p1 := if normalize then normalizePixels pixels else pixels
  let p2 := if applyThresh ∧ threshold > 0 then applyThreshold p1 threshold else p1
  if center then centerImage p2 else some p2

/-- The option translation the `POST /api/predict` route performs
(unnamed/part_008 lines 44-49): `normalize: options.normalize !== false`,
`center: options.center !== false`, `threshold: options.threshold ||
0.1`, `applyThresh: options.applyThreshold !== false` — the route maps
the API field `applyThreshold` onto the field `applyThresh` that
`preprocessImage` actually reads. -/
def route_preprocessOptions (options : PreprocessOptions) : PreprocessOptions :=
  { normalize := some (decide (options.normalize ≠ some false))
    center := some (decide (options.center ≠ some false))
    threshold := some
      (match options.threshold with
      | some t => if t = 0 then 1 / 10 else t
      | none => 1 / 10)
    applyThresh := some (decide (options.applyThreshold ≠ some false))
    applyThreshold := none }

end SOC

namespace SOC

/-! # Theorems -/

/-! ## C9: `matrix_create` and zero-allocation -/

/-- C9 counterexample: `matrix_create` does not zero its buffer.  With
both allocations succeeding and `malloc` handing over a 1×1 buffer whose
indeterminate content is `[1]`, the returned matrix has a nonzero
element, refuting "every element of the returned matrix equals 0". -/
theorem matrix_create_not_zeroed :
    ∃ m : Matrix, matrix_create 1 1 true (some [1]) = some m ∧
      ¬(∀ x ∈ m.data, x = (0 : ℝ)) := by
  refine ⟨⟨1, 1, [1]⟩, rfl, fun h => ?_⟩
  have h1 := h 1 (by simp)
  norm_num at h1

/-! ## Helper lemmas for the shuffle -/

/-- Setting position `m` and pulling its old element to the front is a
permutation of putting the new element in front. -/
theorem cons_set_perm {α : Type*} :
    ∀ (t : List α) (m : Nat) (a : α), (h : m < t.length) →
      (t[m] :: t.set m a).Perm (a :: t) := by
  intro t
  induction t with
  | nil => intro m a h; simp at h
  | cons b t' ih =>
    intro m a h
    cases m with
    | zero => simpa using List.Perm.swap a b t'
    | succ k =>
      have hk : k < t'.length := by simpa using h
      simp only [List.getElem_cons_succ, List.set]
      exact (List.Perm.swap b (t'.get ⟨k, hk⟩) (t'.set k a)).trans
        (((ih k a hk).cons b).trans (List.Perm.swap a b t'))

/-- Exchanging the elements at two in-range positions (via two `set`s) is
a permutation. -/
theorem set_set_swap_perm {α : Type*} :
    ∀ (l : List α) (i j : Nat), (hi : i < l.length) → (hj : j < l.length) →
      ((l.set i l[j]).set j l[i]).Perm l := by
  intro l
  induction l with
  | nil => intro i j hi _; simp at hi
  | cons a t ih =>
    intro i j hi hj
    cases i with
    | zero =>
      cases j with
      | zero => simp
      | succ k =>
        have hk : k < t.length := by simpa using hj
        simpa using cons_set_perm t k a hk
    | succ m =>
      have hm : m < t.length := by simpa using hi
      cases j with
      | zero => simpa using cons_set_perm t m a hm
      | succ k =>
        have hk : k < t.length := by simpa using hj
        simpa using (ih m k hm hk).cons a

/-- `swapRows` permutes the list. -/
theorem swapRows_perm {α : Type*} (l : List α) (i j : Nat) :
    (swapRows l i j).Perm l := by
  unfold swapRows
  cases hi : l[i]? with
  | none => exact List.Perm.refl l
  | some xi =>
    cases hj : l[j]? with
    | none => exact List.Perm.refl l
    | some xj =>
      obtain ⟨hi', exi⟩ := List.getElem?_eq_some_iff.mp hi
      obtain ⟨hj', exj⟩ := List.getElem?_eq_some_iff.mp hj
      subst exi
      subst exj
      exact set_set_swap_perm l i j hi' hj'

/-- `swapRows` preserves the length. -/
theorem swapRows_length {α : Type*} (l : List α) (i j : Nat) :
    (swapRows l i j).length = l.length := by
  unfold swapRows
  cases l[i]? <;> cases l[j]? <;> simp

/-- `zip` commutes with parallel `set`s at the same index. -/
theorem zip_set {α β : Type*} :
    ∀ (as : List α) (bs : List β) (i : Nat) (a : α) (b : β),
      (as.set i a).zip (bs.set i b) = (as.zip bs).set i (a, b) := by
  intro as
  induction as with
  | nil => intro bs i a b; simp
  | cons x as' ih =>
    intro bs i a b
    cases bs with
    | nil => cases i <;> simp
    | cons y bs' =>
      cases i with
      | zero => simp
      | succ k => simp [ih bs' k a b]

/-- `zip` commutes with parallel `swapRows` at the same indices, given
equal lengths. -/
theorem zip_swapRows {α β : Type*} (as : List α) (bs : List β)
    (h : as.length = bs.length) (i j : Nat) :
    (swapRows as i j).zip (swapRows bs i j) = swapRows (as.zip bs) i j := by
  unfold swapRows
  by_cases hi : i < as.length
  · by_cases hj : j < as.length
    · have hbi : i < bs.length := h ▸ hi
      have hbj : j < bs.length := h ▸ hj
      have hzi : (as.zip bs)[i]? = some (as[i], bs[i]) :=
        List.getElem?_zip_eq_some.mpr
          ⟨List.getElem?_eq_getElem hi, List.getElem?_eq_getElem hbi⟩
      have hzj : (as.zip bs)[j]? = some (as[j], bs[j]) :=
        List.getElem?_zip_eq_some.mpr
          ⟨List.getElem?_eq_getElem hj, List.getElem?_eq_getElem hbj⟩
      rw [List.getElem?_eq_getElem hi, List.getElem?_eq_getElem hj,
        List.getElem?_eq_getElem hbi, List.getElem?_eq_getElem hbj, hzi, hzj]
      rw [zip_set, zip_set]
    · have hbj : ¬ j < bs.length := h ▸ hj
      have haj : as[j]? = none := List.getElem?_eq_none (by omega)
      have hbj2 : bs[j]? = none := List.getElem?_eq_none (by omega)
      have hzj : (as.zip bs)[j]? = none := by
        refine List.getElem?_eq_none ?_
        rw [List.length_zip]
        omega
      rw [haj, hbj2, hzj]
      cases as[i]? <;> cases bs[i]? <;> cases (as.zip bs)[i]? <;> rfl
  · have hbi : ¬ i < bs.length := h ▸ hi
    have hai : as[i]? = none := List.getElem?_eq_none (by omega)
    have hbi2 : bs[i]? = none := List.getElem?_eq_none (by omega)
    have hzi : (as.zip bs)[i]? = none := by
      refine List.getElem?_eq_none ?_
      rw [List.length_zip]
      omega
    rw [hai, hbi2, hzi]

/-- The Fisher–Yates loop keeps the zipped (input, target) rows a
permutation of the originals and preserves both lengths. -/
theorem dataset_shuffle_aux_perm {α β : Type*} (rand : Nat → Nat) :
    ∀ (n : Nat) (as : List α) (bs : List β), as.length = bs.length →
      ((dataset_shuffle_aux rand n (as, bs)).1.zip
          (dataset_shuffle_aux rand n (as, bs)).2).Perm (as.zip bs) ∧
        (dataset_shuffle_aux rand n (as, bs)).1.length = as.length ∧
        (dataset_shuffle_aux rand n (as, bs)).2.length = bs.length := by
  intro n
  induction n with
  | zero => intro as bs _; exact ⟨List.Perm.refl _, rfl, rfl⟩
  | succ i ih =>
    intro as bs h
    have h' : (swapRows as (i + 1) (rand (i + 1) % (i + 2))).length =
        (swapRows bs (i + 1) (rand (i + 1) % (i + 2))).length := by
      rw [swapRows_length, swapRows_length]; exact h
    have step := ih (swapRows as (i + 1) (rand (i + 1) % (i + 2)))
      (swapRows bs (i + 1) (rand (i + 1) % (i + 2))) h'
    refine ⟨?_, ?_, ?_⟩
    · show ((dataset_shuffle_aux rand i _).1.zip (dataset_shuffle_aux rand i _).2).Perm _
      refine step.1.trans ?_
      rw [zip_swapRows as bs h]
      exact swapRows_perm _ _ _
    · show (dataset_shuffle_aux rand i _).1.length = _
      rw [step.2.1, swapRows_length]
    · show (dataset_shuffle_aux rand i _).2.length = _
      rw [step.2.2, swapRows_length]

/-! ## C8: `dataset_shuffle` is a pairing-preserving permutation -/

/-- C8: for equal-length parallel arrays, `dataset_shuffle` permutes the
rows: the zipped list of (input, target) pairs after shuffling is a
permutation of the one before — so the multiset of pairs is unchanged and
every input row stays paired with its original target row — and each
component array is a permutation of the original. -/
theorem dataset_shuffle_is_permutation {α β : Type*} (rand : Nat → Nat)
    (inputs : List α) (targets : List β)
    (h : inputs.length = targets.length) :
    ((dataset_shuffle rand inputs targets).1.zip
        (dataset_shuffle rand inputs targets).2).Perm (inputs.zip targets) ∧
      (dataset_shuffle rand inputs targets).1.Perm inputs ∧
      (dataset_shuffle rand inputs targets).2.Perm targets := by
  have main := dataset_shuffle_aux_perm rand (inputs.length - 1) inputs targets h
  refine ⟨main.1, ?_, ?_⟩
  · have hf := main.1.map Prod.fst
    rwa [List.map_fst_zip _ _ (by rw [main.2.1, main.2.2]; exact le_of_eq h),
      List.map_fst_zip _ _ (le_of_eq h)] at hf
  · have hs := main.1.map Prod.snd
    rwa [List.map_snd_zip _ _ (by rw [main.2.1, main.2.2]; exact ge_of_eq h),
      List.map_snd_zip _ _ (ge_of_eq h)] at hs

/-- C8 witness: the permutation theorem applied to a concrete two-row
dataset. -/
theorem dataset_shuffle_is_permutation_witness :
    (([10, 20] : List ℕ).length = ([1, 2] : List ℕ).length) ∧
      (((dataset_shuffle (fun _ => 0) ([10, 20] : List ℕ) ([1, 2] : List ℕ)).1.zip
          (dataset_shuffle (fun _ => 0) ([10, 20] : List ℕ) ([1, 2] : List ℕ)).2).Perm
          (([10, 20] : List ℕ).zip [1, 2]) ∧
        (dataset_shuffle (fun _ => 0) ([10, 20] : List ℕ) ([1, 2] : List ℕ)).1.Perm [10, 20] ∧
        (dataset_shuffle (fun _ => 0) ([10, 20] : List ℕ) ([1, 2] : List ℕ)).2.Perm [1, 2]) :=
  ⟨rfl, dataset_shuffle_is_permutation (fun _ => 0) [10, 20] [1, 2] rfl⟩

/-! ## C10: a failed `Init` leaves no loaded network -/

/-- C10: `Init` always frees the previously loaded network before the new
load (the freed network is exactly the prior state), and when loading the
file at the path fails, no network remains loaded: the returned success
boolean is false, the process-wide pointer is `NULL`, and `GetModelInfo`
then reports `{loaded:false}` — the prior model is not restored. -/
theorem bridge_init_failed_load (st : Option NeuralNetwork)
    (file : Option (List FileWord)) (h : file.bind network_load = none) :
    (bridge_init st file).freed = st ∧
      (bridge_init st file).state = none ∧
      (bridge_init st file).success = false ∧
      bridge_getModelInfo (bridge_init st file).state = ⟨false, none⟩ := by
  refine ⟨rfl, ?_, ?_, ?_⟩ <;> simp [bridge_init, h, bridge_getModelInfo]

/-- C10 witness: a network is loaded, `Init` runs on an unopenable file
(`fopen` returns `NULL`), and afterwards nothing is loaded. -/
theorem bridge_init_failed_load_witness :
    (Option.bind (none : Option (List FileWord)) network_load = none) ∧
      ((bridge_init (some ⟨[1, 1], 0, [⟨[⟨[0], 0, ActivationType.softmax⟩],
            ActivationType.softmax⟩]⟩) none).freed =
          some ⟨[1, 1], 0, [⟨[⟨[0], 0, ActivationType.softmax⟩],
            ActivationType.softmax⟩]⟩ ∧
        (bridge_init (some ⟨[1, 1], 0, [⟨[⟨[0], 0, ActivationType.softmax⟩],
            ActivationType.softmax⟩]⟩) none).state = none ∧
        (bridge_init (some ⟨[1, 1], 0, [⟨[⟨[0], 0, ActivationType.softmax⟩],
            ActivationType.softmax⟩]⟩) none).success = false ∧
        bridge_getModelInfo (bridge_init (some ⟨[1, 1], 0,
            [⟨[⟨[0], 0, ActivationType.softmax⟩], ActivationType.softmax⟩]⟩)
            none).state = ⟨false, none⟩) :=
  ⟨rfl, bridge_init_failed_load _ none rfl⟩

/-! ## C5: switching to a missing model file -/

/-- C5: a `POST /api/model/switch` request naming a model file that does
not exist in the model directory answers HTTP 404, leaves the loaded
native model unchanged, and never invokes the native `init` on that
request. -/
theorem switch_route_missing_file (name : String) (fileExists : String → Bool)
    (fs : String → Option (List FileWord)) (st : Option NeuralNetwork)
    (h : fileExists (modelsDir ++ "/" ++ name) = false) :
    switch_route (some name) fileExists fs st = ⟨404, st, false⟩ := by
  unfold switch_route
  simp [h]

/-- C5 witness: the 404 theorem applied to a concrete request for a file
absent from an empty model directory. -/
theorem switch_route_missing_file_witness :
    ((fun _ : String => false) (modelsDir ++ "/" ++ "ghost.bin") = false) ∧
      switch_route (some "ghost.bin") (fun _ => false) (fun _ => none)
          (none : Option NeuralNetwork) = ⟨404, none, false⟩ :=
  ⟨rfl, switch_route_missing_file "ghost.bin" (fun _ => false) (fun _ => none) none rfl⟩

/-! ## C4: service wrapper lifecycle checks -/

/-- Without a successful `init`, the wrapper state never becomes
initialized. -/
theorem runCalls_no_success (calls : List WrapperCall)
    (h : WrapperCall.init true ∉ calls) : runCalls calls = ⟨false⟩ := by
  unfold runCalls
  induction calls with
  | nil => rfl
  | cons c rest ih =>
    have hc : c ≠ WrapperCall.init true := fun hc => h (hc ▸ List.mem_cons_self c rest)
    have hrest : WrapperCall.init true ∉ rest := fun hr => h (List.mem_cons_of_mem c hr)
    have hstep :
        (match c with
          | WrapperCall.init s => wrapper_init ⟨false⟩ s
          | WrapperCall.cleanup => wrapper_cleanup ⟨false⟩) = ⟨false⟩ := by
      cases c with
      | init s =>
        cases s with
        | true => exact absurd rfl hc
        | false => rfl
      | cleanup => rfl
    rw [List.foldl_cons, hstep]
    exact ih hrest

/-- C4 counterexample: on the freshly constructed wrapper (no `init` has
ever succeeded), `getModelInfo()` does not fail with a NotInitialized
error — it reaches the native module unconditionally; and an initialized
wrapper's `predict()` on an array of 784 strings (not numbers) also
reaches the native module instead of failing with InvalidInput. -/
theorem wrapper_no_init_check_counterexample :
    (WrapperCall.init true ∉ ([] : List WrapperCall)) ∧
      wrapper_getModelInfo (runCalls []) ≠ InfoOutcome.notInitialized ∧
      wrapper_predict ⟨true⟩ (JsInput.arr (List.replicate 784 (JsVal.str "x"))) =
        PredictOutcome.nativeCall (List.replicate 784 (JsVal.str "x")) := by
  refine ⟨List.not_mem_nil _, fun h => ?_, ?_⟩
  · exact InfoOutcome.noConfusion h
  · simp [wrapper_predict]

/-- C4 (amended): in every call sequence in which `init()` has not
returned success, `predict()` fails with the NotInitialized error before
reaching the native module; an initialized wrapper's `predict()` fails
with the InvalidInput error exactly when the argument is not an array of
exactly 784 elements (element types are not checked, so an array of 784
non-numbers passes); and `getModelInfo()` performs no initialization
check at all — it forwards to the native module in every state. -/
theorem wrapper_lifecycle_spec :
    (∀ calls : List WrapperCall, WrapperCall.init true ∉ calls →
        ∀ input, wrapper_predict (runCalls calls) input =
          PredictOutcome.notInitialized) ∧
      (∀ xs : List JsVal, wrapper_predict ⟨true⟩ (JsInput.arr xs) =
        if xs.length = 784 then PredictOutcome.nativeCall xs
        else PredictOutcome.invalidInput) ∧
      wrapper_predict ⟨true⟩ JsInput.nonArray = PredictOutcome.invalidInput ∧
      ∀ st : WrapperState, wrapper_getModelInfo st = InfoOutcome.nativeCall := by
  refine ⟨?_, ?_, rfl, fun _ => rfl⟩
  · intro calls h input
    rw [runCalls_no_success calls h]
    rfl
  · intro xs
    simp [wrapper_predict]

/-- C4 witness: after a failed `init` and a `cleanup`, `predict` on a
well-formed pixel array still reports NotInitialized; `getModelInfo` on
an initialized wrapper reaches the native module. -/
theorem wrapper_lifecycle_spec_witness :
    wrapper_predict (runCalls [WrapperCall.init false, WrapperCall.cleanup])
        (JsInput.arr (List.replicate 784 (JsVal.num 0))) =
        PredictOutcome.notInitialized ∧
      wrapper_getModelInfo ⟨true⟩ = InfoOutcome.nativeCall :=
  ⟨wrapper_lifecycle_spec.1 [WrapperCall.init false, WrapperCall.cleanup]
      (by simp) (JsInput.arr (List.replicate 784 (JsVal.num 0))),
    wrapper_lifecycle_spec.2.2.2 ⟨true⟩⟩

/-! ## C6: the preprocessing pipeline and its options record -/

/-- Summation of an index-weighted map over all-zero pixels vanishes. -/
theorem map_enumFrom_replicate_zero_sum (f : ℕ × ℚ → ℚ)
    (hf : ∀ k : ℕ, f (k, 0) = 0) :
    ∀ (n k : ℕ), (((List.replicate n (0 : ℚ)).enumFrom k).map f).sum = 0 := by
  intro n
  induction n with
  | zero => intro k; simp
  | succ m ih =>
    intro k
    rw [List.replicate_succ, List.enumFrom_cons, List.map_cons, List.sum_cons,
      hf k, ih (k + 1), zero_add]

/-- `normalizePixels` on the counterexample image. -/
theorem normalizePixels_example :
    normalizePixels ((1 / 20 : ℚ) :: List.replicate 783 0) =
      (1 / 20 : ℚ) :: List.replicate 783 0 := by
  unfold normalizePixels
  rw [List.map_cons, List.map_replicate]
  norm_num [min_def, max_def]

/-- `applyThreshold` at the default 0.1 zeroes the weak pixel of the
counterexample image. -/
theorem applyThreshold_example :
    applyThreshold ((1 / 20 : ℚ) :: List.replicate 783 0) (1 / 10) =
      (0 : ℚ) :: List.replicate 783 0 := by
  unfold applyThreshold
  rw [List.map_cons, List.map_replicate]
  norm_num

/-- The counterexample image has exactly 784 pixels. -/
theorem example_length_zero :
    ¬(((0 : ℚ) :: List.replicate 783 0).length ≠ 784) := by
  rw [List.length_cons, List.length_replicate]
  exact fun h => h rfl

/-- The weak-pixel counterexample image has exactly 784 pixels. -/
theorem example_length_weak :
    ¬(((1 / 20 : ℚ) :: List.replicate 783 0).length ≠ 784) := by
  rw [List.length_cons, List.length_replicate]
  exact fun h => h rfl

/-- Centre of mass of the all-zero image defaults to the grid centre. -/
theorem calculateCenterOfMass_zero :
    calculateCenterOfMass ((0 : ℚ) :: List.replicate 783 0) = some (14, 14) := by
  unfold calculateCenterOfMass
  rw [if_neg example_length_zero]
  have hsum : ((0 : ℚ) :: List.replicate 783 0).sum = 0 := by
    rw [List.sum_cons, List.sum_replicate, smul_zero, zero_add]
  simp only [hsum]
  rw [if_pos trivial]

/-- Centring the all-zero image is the identity (shift (0,0)). -/
theorem centerImage_zero :
    centerImage ((0 : ℚ) :: List.replicate 783 0) =
      some ((0 : ℚ) :: List.replicate 783 0) := by
  unfold centerImage
  rw [if_neg example_length_zero, calculateCenterOfMass_zero]
  have hr : jsRound ((14 : ℚ) - 14) = 0 := by
    unfold jsRound
    rw [show (14 : ℚ) - 14 + 1 / 2 = 1 / 2 by norm_num]
    exact Int.floor_eq_iff.mpr (by norm_num)
  simp only [hr]
  rw [if_pos ⟨trivial, trivial⟩]

/-- Centre of mass of the counterexample image: all its mass sits at
pixel (0,0). -/
theorem calculateCenterOfMass_example :
    calculateCenterOfMass ((1 / 20 : ℚ) :: List.replicate 783 0) = some (0, 0) := by
  unfold calculateCenterOfMass
  rw [if_neg example_length_weak]
  have hsum : ((1 / 20 : ℚ) :: List.replicate 783 0).sum = 1 / 20 := by
    rw [List.sum_cons, List.sum_replicate, smul_zero, add_zero]
  have hx : ((((1 / 20 : ℚ) :: List.replicate 783 0).enum).map
      fun p => ((p.1 % 28 : ℕ) : ℚ) * p.2).sum = 0 := by
    rw [List.enum_cons, List.map_cons, List.sum_cons,
      map_enumFrom_replicate_zero_sum _ (fun k => mul_zero _) 783 1]
    norm_num
  have hy : ((((1 / 20 : ℚ) :: List.replicate 783 0).enum).map
      fun p => ((p.1 / 28 : ℕ) : ℚ) * p.2).sum = 0 := by
    rw [List.enum_cons, List.map_cons, List.sum_cons,
      map_enumFrom_replicate_zero_sum _ (fun k => mul_zero _) 783 1]
    norm_num
  simp only [hsum, hx, hy]
  rw [if_neg (by norm_num)]
  norm_num

/-- The threshold-then-centre image of the weak-pixel example: every
pixel is wiped, and centring the empty image is the identity. -/
theorem preprocess_actual_example :
    preprocessImage ((1 / 20 : ℚ) :: List.replicate 783 0)
        { applyThreshold := some false } =
      some ((0 : ℚ) :: List.replicate 783 0) := by
  unfold preprocessImage
  simp only [Option.getD_none, if_true]
  rw [if_pos ⟨trivial, by norm_num⟩]
  rw [normalizePixels_example, applyThreshold_example, centerImage_zero]

/-- The centred (unthresholded) weak-pixel example keeps its ink: the
pixel lands at the grid centre, index 406 = 14·28 + 14. -/
theorem centerImage_example_at_406 :
    ∃ L : List ℚ, centerImage ((1 / 20 : ℚ) :: List.replicate 783 0) = some L ∧
      L[406]? = some (1 / 20) := by
  unfold centerImage
  rw [if_neg example_length_weak, calculateCenterOfMass_example]
  have h14 : jsRound ((14 : ℚ) - 0) = 14 := by
    unfold jsRound
    rw [show (14 : ℚ) - 0 + 1 / 2 = 29 / 2 by norm_num]
    exact Int.floor_eq_iff.mpr (by norm_num)
  simp only [h14]
  rw [if_neg (by norm_num)]
  refine ⟨_, rfl, ?_⟩
  rw [List.getElem?_map, List.getElem?_range (by norm_num)]
  generalize List.replicate 783 (0 : ℚ) = R
  norm_num [List.getD_cons_zero]

/-- C6 counterexample: `preprocessImage` with `{applyThreshold: false}`
(all other fields defaulted) does not skip the threshold stage — on an
image whose only ink is a weak 0.05 pixel at the corner, the result
differs from the claimed normalize-then-centre pipeline (the threshold
wiped the pixel before centring, because the destructured option is
named `applyThresh`, not `applyThreshold`). -/
theorem preprocessImage_applyThreshold_ignored :
    preprocessImage ((1 / 20 : ℚ) :: List.replicate 783 0)
        { applyThreshold := some false } ≠
      centerImage (normalizePixels ((1 / 20 : ℚ) :: List.replicate 783 0)) := by
  obtain ⟨L, hL, h406⟩ := centerImage_example_at_406
  rw [preprocess_actual_example, normalizePixels_example, hL]
  intro heq
  have hlists : ((0 : ℚ) :: List.replicate 783 0) = L := Option.some.inj heq
  rw [← hlists, List.getElem?_cons_succ] at h406
  have hrep : (List.replicate 783 (0 : ℚ))[405]? = some 0 := by
    rw [List.getElem?_replicate, if_pos (by norm_num)]
  rw [hrep] at h406
  have h0 : (0 : ℚ) = 1 / 20 := Option.some.inj h406
  norm_num at h0

/-- C6 (amended): `preprocessImage` is controlled by an options record
whose recognized fields are {normalize: default true, center: default
true, threshold: default 0.1, applyThresh: default true}.  With all
fields absent it applies normalize, then threshold at 0.1, then center,
in that order; `{applyThresh: false}` skips the threshold stage; a field
named `applyThreshold` is not recognized by `preprocessImage` and leaves
the result at its defaults — it is the single-predict route that
translates the API field `applyThreshold` into `applyThresh`, so through
that route `{applyThreshold: false}` does skip the threshold stage. -/
theorem preprocessImage_pipeline_spec :
    (∀ pixels : List ℚ, preprocessImage pixels {} =
        centerImage (applyThreshold (normalizePixels pixels) (1 / 10))) ∧
      (∀ pixels : List ℚ, preprocessImage pixels { applyThresh := some false } =
        centerImage (normalizePixels pixels)) ∧
      (∀ (pixels : List ℚ) (b : Bool),
        preprocessImage pixels { applyThreshold := some b } =
          preprocessImage pixels {}) ∧
      (∀ pixels : List ℚ, preprocessImage pixels
          (route_preprocessOptions { applyThreshold := some false }) =
        centerImage (normalizePixels pixels)) := by
  refine ⟨?_, ?_, ?_, ?_⟩
  · intro pixels
    unfold preprocessImage
    norm_num
  · intro pixels
    unfold preprocessImage
    norm_num
  · intro pixels b
    rfl
  · intro pixels
    unfold preprocessImage route_preprocessOptions
    simp

/-! ## C2: softmax outputs -/

/-- Clamping moves a value of `(0, 1]` by at most `ε`. -/
theorem clamp_close (o ε : ℝ) (hε : 0 < ε) (hε2 : ε ≤ 1 - ε) (ho : 0 < o)
    (ho1 : o ≤ 1) : |min (max o ε) (1 - ε) - o| ≤ ε := by
  rcases le_total o ε with h | h
  · rw [max_eq_right h, min_eq_left hε2, abs_of_nonneg (by linarith)]
    linarith
  · rw [max_eq_left h]
    rcases le_total o (1 - ε) with h2 | h2
    · rw [min_eq_left h2]
      simpa using hε.le
    · rw [min_eq_right h2, abs_of_nonpos (by linarith)]
      linarith

/-- The two clamp spellings (`fmaxf` then `fminf`, and `fminf` then
`fmaxf`) agree when `ε ≤ 1 - ε`. -/
theorem clamp_comm (r ε : ℝ) (h : ε ≤ 1 - ε) :
    max (min r (1 - ε)) ε = min (max r ε) (1 - ε) := by
  rcases le_total r ε with h1 | h1
  · rw [min_eq_left (le_trans h1 h), max_eq_right h1, min_eq_left h]
  · rcases le_total r (1 - ε) with h2 | h2
    · rw [min_eq_left h2, max_eq_left h1, min_eq_left h2]
    · rw [min_eq_right h2, max_eq_left h, max_eq_left h1, min_eq_right h2]

/-- A sum of mapped differences is bounded by length times a uniform
bound. -/
theorem abs_sum_map_sub_le (l : List ℝ) (f g : ℝ → ℝ) (c : ℝ)
    (h : ∀ x ∈ l, |f x - g x| ≤ c) :
    |(l.map f).sum - (l.map g).sum| ≤ l.length * c := by
  induction l with
  | nil => simp
  | cons a t ih =>
    have ha := h a (List.mem_cons_self a t)
    have ht : ∀ x ∈ t, |f x - g x| ≤ c := fun x hx => h x (List.mem_cons_of_mem a hx)
    have hihs := ih ht
    rw [List.map_cons, List.map_cons, List.sum_cons, List.sum_cons, List.length_cons]
    have hrw : f a + (t.map f).sum - (g a + (t.map g).sum) =
        (f a - g a) + ((t.map f).sum - (t.map g).sum) := by ring
    rw [hrw]
    calc |(f a - g a) + ((t.map f).sum - (t.map g).sum)|
        ≤ |f a - g a| + |(t.map f).sum - (t.map g).sum| := abs_add _ _
      _ ≤ c + t.length * c := add_le_add ha hihs
      _ = ((t.length + 1 : ℕ) : ℝ) * c := by push_cast; ring

/-- Dividing a list sum elementwise. -/
theorem sum_map_div (l : List ℝ) (c : ℝ) :
    (l.map fun e => e / c).sum = l.sum / c := by
  induction l with
  | nil => simp
  | cons a t ih =>
    rw [List.map_cons, List.sum_cons, List.sum_cons, ih, add_div]

/-- C2: for every nonempty input vector, `softmax_forward` returns
outputs clamped into `[ε, 1-ε]` with `ε = FLT_EPSILON` — hence strictly
inside `(0, 1)` — whose sum differs from 1 by at most `n·ε` (the
floating-point tolerance), and the per-index scalar `softmax` computes
exactly the same values. -/
theorem softmax_forward_props (input : List ℝ) (h : input ≠ []) :
    (∀ y ∈ softmax_forward input,
        flt_epsilon ≤ y ∧ y ≤ 1 - flt_epsilon ∧ 0 < y ∧ y < 1) ∧
      |(softmax_forward input).sum - 1| ≤ input.length * flt_epsilon ∧
      ∀ i, i < input.length → softmax input i = (softmax_forward input).getD i 0 := by
  have hε : (0 : ℝ) < flt_epsilon := by unfold flt_epsilon; norm_num
  have hε2 : flt_epsilon ≤ 1 - flt_epsilon := by unfold flt_epsilon; norm_num
  set m := maxVal input with hm
  set exps := input.map fun x => Real.exp (x - m) with hexps
  have hexps_pos : ∀ e ∈ exps, 0 < e := by
    intro e he
    rw [hexps] at he
    obtain ⟨x, _, rfl⟩ := List.mem_map.mp he
    exact Real.exp_pos _
  have hexps_ne : exps ≠ [] := by
    rw [hexps]
    exact fun hc => h (List.map_eq_nil_iff.mp hc)
  have hsum_pos : 0 < exps.sum := List.sum_pos exps hexps_pos hexps_ne
  have ho_mem : ∀ e ∈ exps, 0 < e / exps.sum ∧ e / exps.sum ≤ 1 := by
    intro e he
    constructor
    · exact div_pos (hexps_pos e he) hsum_pos
    · rw [div_le_one hsum_pos]
      exact List.single_le_sum (fun x hx => (hexps_pos x hx).le) e he
  have hsf : softmax_forward input =
      exps.map fun e => min (max (e / exps.sum) flt_epsilon) (1 - flt_epsilon) := rfl
  refine ⟨?_, ?_, ?_⟩
  · intro y hy
    rw [hsf] at hy
    obtain ⟨e, he, rfl⟩ := List.mem_map.mp hy
    refine ⟨le_min (le_max_right _ _) hε2, min_le_right _ _, ?_, ?_⟩
    · exact lt_of_lt_of_le hε (le_min (le_max_right _ _) hε2)
    · exact lt_of_le_of_lt (min_le_right _ _) (by linarith)
  · have hos : (exps.map fun e => e / exps.sum).sum = 1 := by
      rw [sum_map_div, div_self (ne_of_gt hsum_pos)]
    have hdiff := abs_sum_map_sub_le exps
      (fun e => min (max (e / exps.sum) flt_epsilon) (1 - flt_epsilon))
      (fun e => e / exps.sum) flt_epsilon
      (fun e he => clamp_close (e / exps.sum) flt_epsilon hε hε2
        (ho_mem e he).1 (ho_mem e he).2)
    rw [hos] at hdiff
    rw [hsf]
    calc |(exps.map fun e =>
            min (max (e / exps.sum) flt_epsilon) (1 - flt_epsilon)).sum - 1|
        ≤ exps.length * flt_epsilon := hdiff
      _ = input.length * flt_epsilon := by rw [hexps, List.length_map]
  · intro i hi
    have hlen : i < exps.length := by rw [hexps, List.length_map]; exact hi
    have hget : exps.getD i 0 = Real.exp (input.getD i 0 - m) := by
      rw [List.getD_eq_getElem _ _ hlen, List.getD_eq_getElem _ _ hi]
      simp only [hexps, List.getElem_map]
    have hsfget : (softmax_forward input).getD i 0 =
        min (max (exps.getD i 0 / exps.sum) flt_epsilon) (1 - flt_epsilon) := by
      rw [hsf]
      have hlen2 : i < (exps.map fun e =>
          min (max (e / exps.sum) flt_epsilon) (1 - flt_epsilon)).length := by
        rw [List.length_map]; exact hlen
      rw [List.getD_eq_getElem _ _ hlen2]
      simp only [List.getElem_map]
      rw [List.getD_eq_getElem _ _ hlen]
    rw [hsfget, hget]
    simp only [softmax]
    rw [← hm, ← hexps]
    exact clamp_comm _ _ hε2

/-- C2 witness: the softmax properties at the concrete input `[0]`. -/
theorem softmax_forward_props_witness :
    (∀ y ∈ softmax_forward [(0 : ℝ)],
        flt_epsilon ≤ y ∧ y ≤ 1 - flt_epsilon ∧ 0 < y ∧ y < 1) ∧
      |(softmax_forward [(0 : ℝ)]).sum - 1| ≤
        ([(0 : ℝ)].length : ℝ) * flt_epsilon ∧
      ∀ i, i < [(0 : ℝ)].length →
        softmax [(0 : ℝ)] i = (softmax_forward [(0 : ℝ)]).getD i 0 :=
  softmax_forward_props [0] (by simp)

/-! ## C3: the MNIST loader and the magic number -/

/-- C3 counterexample: an images file whose leading 32-bit big-endian
integer is 0 (not 0x803) is not rejected — `dataset_load_mnist` returns
0 (success) and produces all three datasets.  The four files here are
all-zero headers: magic 0, zero samples, zero rows/columns. -/
theorem dataset_load_mnist_accepts_wrong_magic :
    (read_int (List.replicate 16 0)).1 = 0 ∧
      (0 : Int) ≠ MNIST_MAGIC_IMAGES ∧
      (dataset_load_mnist (some (List.replicate 16 0))
          (some (List.replicate 8 0)) (some (List.replicate 16 0))
          (some (List.replicate 8 0)) (1 / 10) (List.replicate 784 0) 0).code
        = 0 ∧
      (dataset_load_mnist (some (List.replicate 16 0))
          (some (List.replicate 8 0)) (some (List.replicate 16 0))
          (some (List.replicate 8 0)) (1 / 10) (List.replicate 784 0) 0).train
        ≠ none := by
  refine ⟨rfl, by decide, rfl, ?_⟩
  intro hc
  exact Option.noConfusion hc

/-- C3 (amended): `dataset_load_mnist` never inspects the magic numbers
it reads: whenever all four files open, it reports success (0) and
produces all three datasets, whatever the leading integers are; it
reports failure (-1, with no datasets) exactly when some file fails to
open (or, in the C code, when a dataset allocation fails — not
modelled). -/
theorem dataset_load_mnist_no_magic_check (ti tl si sl : List Nat) (r : ℚ)
    (buf : List Nat) (lb : Nat) :
    ((dataset_load_mnist (some ti) (some tl) (some si) (some sl) r buf lb).code
        = 0 ∧
      (dataset_load_mnist (some ti) (some tl) (some si) (some sl) r buf
          lb).train ≠ none ∧
      (dataset_load_mnist (some ti) (some tl) (some si) (some sl) r buf
          lb).val ≠ none ∧
      (dataset_load_mnist (some ti) (some tl) (some si) (some sl) r buf
          lb).test ≠ none) ∧
      dataset_load_mnist none (some tl) (some si) (some sl) r buf lb =
        ⟨-1, none, none, none⟩ ∧
      dataset_load_mnist (some ti) none (some si) (some sl) r buf lb =
        ⟨-1, none, none, none⟩ ∧
      dataset_load_mnist (some ti) (some tl) none (some sl) r buf lb =
        ⟨-1, none, none, none⟩ ∧
      dataset_load_mnist (some ti) (some tl) (some si) none r buf lb =
        ⟨-1, none, none, none⟩ := by
  refine ⟨⟨rfl, ?_, ?_, ?_⟩, rfl, rfl, rfl, rfl⟩ <;>
    exact fun hc => Option.noConfusion hc

/-! ## C1: persistence round trip -/

/-- Reading back a written run of `int` records. -/
theorem readInts_append (ns : List Int) (rest : List FileWord) :
    readInts ns.length (ns.map FileWord.int ++ rest) = some (ns, rest) := by
  induction ns with
  | nil => rfl
  | cons n t ih => simp [readInts, readInt, ih]

/-- Reading back a written run of `float` records. -/
theorem readFlts_append (xs : List ℝ) (rest : List FileWord) :
    readFlts xs.length (xs.map FileWord.flt ++ rest) = some (xs, rest) := by
  induction xs with
  | nil => rfl
  | cons x t ih => simp [readFlts, readFlt, ih]

/-- Reading back one serialized neuron reproduces its weights and bias
(the activation kind is reassigned by position). -/
theorem parseNeuron_serialize (n : Neuron) (act : ActivationType)
    (rest : List FileWord) :
    parseNeuron n.weights.length act (serializeNeuron n ++ rest) =
      some (⟨n.weights, n.bias, act⟩, rest) := by
  unfold parseNeuron serializeNeuron
  rw [List.append_assoc, readFlts_append]
  simp [readFlt]

/-- Reading back a serialized layer's neurons reproduces them, given the
shape and activation facts `network_create` guarantees. -/
theorem parseNeurons_serialize (ns : List Neuron) (w : Nat)
    (act : ActivationType) (rest : List FileWord)
    (h : ∀ n ∈ ns, n.weights.length = w ∧ n.activation_type = act) :
    parseNeurons w act ns.length (ns.flatMap serializeNeuron ++ rest) =
      some (ns, rest) := by
  induction ns generalizing rest with
  | nil => rfl
  | cons n t ih =>
    obtain ⟨hw, ha⟩ := h n (List.mem_cons_self n t)
    have ht : ∀ q ∈ t, q.weights.length = w ∧ q.activation_type = act :=
      fun q hq => h q (List.mem_cons_of_mem n hq)
    subst hw
    rw [List.flatMap_cons, List.append_assoc, List.length_cons, parseNeurons,
      parseNeuron_serialize n act]
    have hn : (⟨n.weights, n.bias, act⟩ : Neuron) = n := by
      cases n
      cases ha
      rfl
    rw [hn]
    simp [ih rest ht]

/-- Reading back the whole serialized layer stack reproduces it. -/
theorem parseLayersAux_serialize :
    ∀ (sizes : List Int) (layers : List Layer) (rest : List FileWord),
      LayersWF sizes layers →
      parseLayersAux sizes (layers.flatMap serializeLayer ++ rest) =
        some (layers, rest) := by
  intro sizes
  induction sizes with
  | nil =>
    intro layers rest hwf
    have hl : layers = [] := hwf
    subst hl
    rfl
  | cons s0 tail ih =>
    intro layers rest hwf
    cases tail with
    | nil =>
      have hl : layers = [] := hwf
      subst hl
      rfl
    | cons s1 rest' =>
      cases layers with
      | nil => exact (hwf : False).elim
      | cons l ls =>
        obtain ⟨hact, hcount, hns, hrec⟩ := hwf
        rw [List.flatMap_cons, List.append_assoc, parseLayersAux]
        dsimp only
        have hser : serializeLayer l = l.neurons.flatMap serializeNeuron := rfl
        have hns2 : ∀ n ∈ l.neurons, n.weights.length = s0.toNat ∧
            n.activation_type =
              (if rest'.isEmpty then ActivationType.softmax
               else ActivationType.relu) := by
          intro n hn
          exact ⟨(hns n hn).1, (hns n hn).2.trans hact⟩
        rw [hser, ← hcount,
          parseNeurons_serialize l.neurons s0.toNat _ _ hns2]
        have hl2 : (⟨l.neurons,
            if rest' = [] then ActivationType.softmax
            else ActivationType.relu⟩ : Layer) = l := by
          cases l
          simp only [List.isEmpty_iff] at hact
          cases hact
          rfl
        simp [ih ls rest hrec, hl2]

/-- Loading the records `network_save`/`model_save` wrote reproduces the
network exactly. -/
theorem network_save_load (net : NeuralNetwork)
    (hwf : LayersWF net.layer_sizes net.layers) :
    network_load (network_save net) = some net ∧
      model_load (model_save net) = some net := by
  have main : network_load (network_save net) = some net := by
    unfold network_load network_save
    rw [show readInt (FileWord.int (net.layer_sizes.length : Int) ::
        (net.layer_sizes.map FileWord.int ++
          (FileWord.flt net.learning_rate ::
            net.layers.flatMap serializeLayer))) =
      some ((net.layer_sizes.length : Int),
        net.layer_sizes.map FileWord.int ++
          (FileWord.flt net.learning_rate ::
            net.layers.flatMap serializeLayer)) from rfl]
    simp only [Option.bind_eq_bind, Option.some_bind, Int.toNat_ofNat]
    rw [readInts_append]
    simp only [Option.some_bind]
    rw [show readFlt (FileWord.flt net.learning_rate ::
        net.layers.flatMap serializeLayer) =
      some (net.learning_rate, net.layers.flatMap serializeLayer) from rfl]
    simp only [Option.some_bind]
    rw [show net.layers.flatMap serializeLayer =
      net.layers.flatMap serializeLayer ++ [] from (List.append_nil _).symm]
    rw [parseLayersAux_serialize net.layer_sizes net.layers [] hwf]
    rfl
  exact ⟨main, main⟩

/-- C1: for every well-formed network (the shape `network_create`
establishes) saving with `network_save`/`model_save` and loading back
with `network_load`/`model_load` yields a network whose `predict` output
is identical to the original's on every input — over this embedding's
exact reals, which models bit-identical reproduction of the stored
32-bit values. -/
theorem network_persistence_roundtrip (net : NeuralNetwork)
    (hwf : LayersWF net.layer_sizes net.layers) :
    ∃ net2, network_load (network_save net) = some net2 ∧
      model_load (model_save net) = some net2 ∧
      ∀ input : List ℝ, network_predict net2 input = network_predict net input :=
  ⟨net, (network_save_load net hwf).1, (network_save_load net hwf).2,
    fun _ => rfl⟩

/-- C1 witness: the round trip on a concrete 1→1 softmax network. -/
theorem network_persistence_roundtrip_witness :
    ∃ net2, network_load (network_save ⟨[1, 1], 1 / 100,
        [⟨[⟨[2], 3, ActivationType.softmax⟩], ActivationType.softmax⟩]⟩) =
        some net2 ∧
      model_load (model_save ⟨[1, 1], 1 / 100,
        [⟨[⟨[2], 3, ActivationType.softmax⟩], ActivationType.softmax⟩]⟩) =
        some net2 ∧
      ∀ input : List ℝ, network_predict net2 input =
        network_predict ⟨[1, 1], 1 / 100,
          [⟨[⟨[2], 3, ActivationType.softmax⟩], ActivationType.softmax⟩]⟩ input :=
  network_persistence_roundtrip
    ⟨[1, 1], 1 / 100, [⟨[⟨[2], 3, ActivationType.softmax⟩],
      ActivationType.softmax⟩]⟩
    (by
      refine ⟨rfl, rfl, ?_, rfl⟩
      intro n hn
      rw [List.mem_singleton.mp hn]
      exact ⟨rfl, rfl⟩)

/-! ## C7: cross-entropy loss sign -/

/-- The cross-entropy accumulator never decreases when every contributing
log term is nonpositive. -/
theorem ce_foldl_ge (l : List (ℝ × ℝ))
    (hl : ∀ pt ∈ l, 0 ≤ pt.2 ∧ (0 < pt.2 → Real.log (pt.1 + loss_epsilon) ≤ 0)) :
    ∀ acc : ℝ, acc ≤ l.foldl
      (fun sum pt =>
        if pt.2 > 0 then sum - pt.2 * Real.log (pt.1 + loss_epsilon) else sum)
      acc := by
  induction l with
  | nil => intro acc; exact le_refl acc
  | cons pt t ih =>
    intro acc
    have hpt := hl pt (List.mem_cons_self pt t)
    have ht : ∀ q ∈ t, 0 ≤ q.2 ∧ (0 < q.2 → Real.log (q.1 + loss_epsilon) ≤ 0) :=
      fun q hq => hl q (List.mem_cons_of_mem pt hq)
    rw [List.foldl_cons]
    refine le_trans ?_ (ih ht _)
    by_cases hpos : pt.2 > 0
    · rw [if_pos hpos]
      have hlog := hpt.2 hpos
      have h1 : 0 ≤ pt.2 * -Real.log (pt.1 + loss_epsilon) :=
        mul_nonneg hpt.1 (neg_nonneg.mpr hlog)
      rw [mul_neg] at h1
      linarith
    · rw [if_neg hpos]

/-- Every entry of a one-hot vector is nonnegative. -/
theorem IsOneHot.nonneg {targets : List ℝ} (h : IsOneHot targets) :
    ∀ t ∈ targets, 0 ≤ t := by
  intro t ht
  obtain ⟨j, _, hj1, hother⟩ := h
  obtain ⟨i, hi, hEq⟩ := List.mem_iff_getElem.mp ht
  rw [← hEq, ← List.getD_eq_getElem targets 0 hi]
  by_cases hij : i = j
  · rw [hij, hj1]
    norm_num
  · rw [hother i hi hij]

/-- Float granularity below 1: a representable single-precision value
strictly between 0 and 1 is at most `1 - 2^-24`, the largest float below
1. -/
theorem binary32_lt_one_bound {x : ℝ} (h : Binary32Representable x)
    (hx0 : 0 < x) (hx1 : x < 1) : x ≤ 1 - 1 / 2 ^ 24 := by
  obtain ⟨m, e, hm, rfl⟩ := h
  have h2e : (0 : ℝ) < (2 : ℝ) ^ e := zpow_pos (by norm_num) e
  have hm0 : 0 < m := by
    by_contra hle
    push_neg at hle
    have hmr : (m : ℝ) ≤ 0 := by exact_mod_cast hle
    nlinarith
  have hm1 : (1 : ℝ) ≤ (m : ℝ) := by exact_mod_cast hm0
  have he_neg : e < 0 := by
    by_contra hge
    push_neg at hge
    have h1e : (1 : ℝ) ≤ (2 : ℝ) ^ e := by
      rw [show e = (e.toNat : ℤ) from (Int.toNat_of_nonneg hge).symm,
        zpow_natCast]
      exact one_le_pow₀ (by norm_num)
    nlinarith
  set k := (-e).toNat with hkdef
  have hek : e = -(k : ℤ) := by omega
  have hpk : (0 : ℝ) < (2 : ℝ) ^ k := by positivity
  have hzp : (m : ℝ) * (2 : ℝ) ^ e = (m : ℝ) / 2 ^ k := by
    rw [hek, zpow_neg, zpow_natCast, div_eq_mul_inv]
  rw [hzp] at hx1 ⊢
  rcases le_or_lt k 24 with hk24 | hk24
  · have hmlt : (m : ℝ) < 2 ^ k := (div_lt_one hpk).mp hx1
    have hmlt' : m < 2 ^ k := by exact_mod_cast hmlt
    have hmle : (m : ℝ) ≤ 2 ^ k - 1 := by
      have hz : m ≤ 2 ^ k - 1 := by omega
      calc (m : ℝ) ≤ ((2 ^ k - 1 : ℤ) : ℝ) := by exact_mod_cast hz
        _ = 2 ^ k - 1 := by push_cast; ring
    have hstep : (m : ℝ) / 2 ^ k ≤ 1 - 1 / 2 ^ k := by
      rw [div_le_iff₀ hpk, show (1 - 1 / (2 : ℝ) ^ k) * 2 ^ k = 2 ^ k - 1 by
        field_simp]
      exact hmle
    refine hstep.trans ?_
    have hkk : (1 : ℝ) / 2 ^ 24 ≤ 1 / 2 ^ k :=
      one_div_le_one_div_of_le hpk
        (pow_le_pow_right₀ (by norm_num) hk24)
    linarith
  · have habs := abs_lt.mp hm
    have hm24 : (m : ℝ) ≤ 2 ^ 24 - 1 := by
      have hz : m ≤ 2 ^ 24 - 1 := by omega
      calc (m : ℝ) ≤ ((2 ^ 24 - 1 : ℤ) : ℝ) := by exact_mod_cast hz
        _ = 2 ^ 24 - 1 := by push_cast; ring
    have h25 : (2 : ℝ) ^ 25 ≤ 2 ^ k :=
      pow_le_pow_right₀ (by norm_num) (by omega)
    have hx : (m : ℝ) / 2 ^ k ≤ (2 ^ 24 - 1) / 2 ^ 25 :=
      div_le_div₀ (by norm_num) hm24 (by positivity) h25
    refine hx.trans ?_
    norm_num

/-- C7: for every one-hot target and every prediction vector whose
entries lie in the open interval `(0, 1)` and are representable
single-precision floats — the only values the C `float*` argument can
hold — the cross-entropy loss is nonnegative.  Every representable float
below 1 is at most `1 - 2^-24`, so `pred + 1e-10` never exceeds 1 and
every contributing log term is nonpositive. -/
theorem cross_entropy_loss_nonneg (predictions targets : List ℝ)
    (h1 : IsOneHot targets)
    (h2 : ∀ p ∈ predictions, Binary32Representable p ∧ 0 < p ∧ p < 1) :
    0 ≤ cross_entropy_loss predictions targets := by
  unfold cross_entropy_loss
  refine ce_foldl_ge _ ?_ 0
  intro pt hpt
  obtain ⟨hp, ht⟩ := List.of_mem_zip hpt
  refine ⟨h1.nonneg pt.2 ht, fun _ => ?_⟩
  obtain ⟨hrep, hp0, hp1⟩ := h2 pt.1 hp
  have hb := binary32_lt_one_bound hrep hp0 hp1
  have hε : (0 : ℝ) < loss_epsilon := by unfold loss_epsilon; norm_num
  have hεb : loss_epsilon ≤ 1 / 2 ^ 24 := by unfold loss_epsilon; norm_num
  exact Real.log_nonpos (by linarith) (by linarith)

/-- C7 witness: the theorem at the representable prediction `[1/2]`
(significand 1, exponent -1) with the one-hot target `[1]`. -/
theorem cross_entropy_loss_nonneg_witness :
    0 ≤ cross_entropy_loss [(1 : ℝ) / 2] [(1 : ℝ)] :=
  cross_entropy_loss_nonneg [(1 : ℝ) / 2] [(1 : ℝ)]
    ⟨0, by norm_num, rfl, fun i hi hne =>
      absurd (Nat.lt_one_iff.mp (by simpa using hi)) hne⟩
    (fun p hp => by
      rw [List.mem_singleton.mp hp]
      refine ⟨⟨1, -1, by norm_num, ?_⟩, by norm_num, by norm_num⟩
      rw [zpow_neg, zpow_one]
      norm_num)

/-- C9 (amended): `matrix_create(rows, cols)` fails exactly on allocation
failure (of the struct or of the data buffer) and otherwise returns a
matrix of the requested shape whose buffer is the allocated buffer,
unchanged and uninitialised — it is not zeroed (`malloc`, not `calloc`;
zero-filling is a separate operation, `matrix_zeros`). -/
theorem matrix_create_spec (rows cols : Int) (buf : List ℝ) :
    matrix_create rows cols false (some buf) = none ∧
      matrix_create rows cols false none = none ∧
      matrix_create rows cols true none = none ∧
      matrix_create rows cols true (some buf) = some ⟨rows, cols, buf⟩ := by
  refine ⟨rfl, rfl, rfl, rfl⟩

end SOC
